import Mathlib

/-!
Verification of the glados audit core (`src/glados-audit/src/lib.rs`) against its
natural-language specification.

The shallow embedding below translates the two tasks of the audit pipeline into pure
Lean functions:

* the Scheduler loop body of `do_audit_orchestration` becomes `doAuditTick` / `pushLoop`,
  with the Catalog query result and the channel state passed in explicitly;
* the Auditor loop of `perform_content_audits` becomes `auditOne` / `auditLoop`, with the
  external calls (`PortalClient::get_content`, `contentkey::get`, `contentaudit::create`)
  supplied as oracles in an `AuditorEnv` (their bodies live outside `src/`; the shapes of
  the oracles are exactly the shapes the caller in `lib.rs` pattern-matches on);
* a Rust panic (slice out of bounds, `expect` on a closed channel) is modelled as an
  aborting outcome: the function returns the work completed so far together with a flag
  saying the task died;
* the bounded tokio mpsc channel of `run_glados_audit` becomes a transition system
  `queueStep` on a list state, with a blocked transition represented as `none`.

Bytes are modelled as `Nat`; the claims in question depend only on lengths and equality
of byte sequences, never on byte arithmetic.
-/

namespace GladosAudit

/-- A byte of a raw content key (`Vec<u8>` in the source). -/
abbrev Byte := Nat

/-- `AUDIT_PERIOD_SECONDS` from `lib.rs`: the fixed Scheduler period. -/
def AUDIT_PERIOD_SECONDS : Nat := 120

/-- The batch limit of the Catalog query in `do_audit_orchestration` (`.limit(10)`). -/
def AUDIT_BATCH_LIMIT : Nat := 10

/-- The capacity passed to `mpsc::channel` in `run_glados_audit`. -/
def queueCapacity : Nat := 100

/-- A row of the content-key table (`contentkey::Model`): id, raw key bytes, creation
time. The Catalog owns these; the core only reads them. -/
structure ContentKeyEntry where
  id : Nat
  content_key : List Byte
  created_at : Nat
deriving DecidableEq, Repr

/-- `BlockHeaderKey { block_hash }` from `ethportal_api`: the 32-byte block hash. -/
structure BlockHeaderKey where
  block_hash : List Byte
deriving DecidableEq, Repr

/-- The one `HistoryContentKey` variant the core constructs (`BlockHeader`). -/
inductive HistoryContentKey where
  | BlockHeader (key : BlockHeaderKey)
deriving DecidableEq, Repr

/-- Lines 64-67 of `lib.rs`: `H256::from_slice(&content_key[1..33])` wrapped in
`HistoryContentKey::BlockHeader`. The slice `[1..33]` panics when the raw key holds
fewer than 33 bytes; the panic is modelled as `none`. -/
def deriveLookupKey (raw : List Byte) : Option HistoryContentKey :=
  if 33 ≤ raw.length then
    some (HistoryContentKey.BlockHeader ⟨(raw.drop 1).take 32⟩)
  else
    none

/-- The per-entry loop of `do_audit_orchestration` (lines 61-73): derive a LookupKey
from each entry in order and send it on the channel. Returns the keys actually pushed
and whether the Scheduler panicked (short raw key, or `expect` failing because the
channel's receiving side is gone). -/
def pushLoop (channelOpen : Bool) : List ContentKeyEntry → List HistoryContentKey × Bool
  | [] => ([], false)
  | e :: rest =>
    match deriveLookupKey e.content_key with
    | none => ([], true)
    | some k =>
      if channelOpen then
        let tail := pushLoop channelOpen rest
        (k :: tail.1, tail.2)
      else
        ([], true)

/-- One iteration of the Scheduler loop (lines 42-73): the Catalog query result is
passed in; on `Err` the loop logs and `continue`s (no pushes, no abort), on `Ok` it
runs `pushLoop` over the batch. -/
def doAuditTick (query : Except Unit (List ContentKeyEntry)) (channelOpen : Bool) :
    List HistoryContentKey × Bool :=
  match query with
  | .error _ => ([], false)
  | .ok entries => pushLoop channelOpen entries

/-- Line 105 of `lib.rs`: `raw_data.len() > 2`, the pass/fail heuristic. -/
def classify (payload : List Byte) : Bool := decide (2 < payload.length)

/-- The outcome of auditing one LookupKey in `perform_content_audits`. -/
inductive AuditStep where
  | recorded (entryId : Nat) (passed : Bool)
  | skipped
  | netFatal
  | storeFatal
deriving DecidableEq, Repr

/-- Modelled from the spec: the body of `entity::contentaudit::create` (AuditStore.create)
is not under `src/`; the spec makes a `StoreError` fatal to the Auditor ("StoreError and
NetworkError (currently fatal to the Auditor — propagate and terminate the task)"), so a
failing create terminates the task instead of recording. `ok = true` means the write
succeeded. -/
def storeOutcome (entryId : Nat) (passed : Bool) (ok : Bool) : AuditStep :=
  if ok then .recorded entryId passed else .storeFatal

/-- Oracles for the Auditor's external calls. `net` is `PortalClient::get_content`
(payload bytes or a network error); `resolve` is `contentkey::get` (its `Result<Option<_>>`
shape is exactly what line 97 pattern-matches); `storeOk` says whether the
`contentaudit::create` write at line 105 succeeds. -/
structure AuditorEnv where
  net : HistoryContentKey → Except Unit (List Byte)
  resolve : HistoryContentKey → Except Unit (Option Nat)
  storeOk : Nat → Bool → Bool

/-- The body of the `while let` loop of `perform_content_audits` (lines 87-108) for one
key: `get_content` with `?` (line 93), then the `let Ok(Some(..)) = .. else continue`
resolve step (lines 97-104), then the create (line 105). -/
def auditOne (env : AuditorEnv) (k : HistoryContentKey) : AuditStep :=
  match env.net k with
  | .error _ => .netFatal
  | .ok payload =>
    match env.resolve k with
    | .ok (some entryId) => storeOutcome entryId (classify payload) (env.storeOk entryId (classify payload))
    | .ok none => .skipped
    | .error _ => .skipped

/-- The Auditor draining a queue of keys in order: returns the `(entry id, passed)`
records written and whether the task terminated fatally before the queue was drained. -/
def auditLoop (env : AuditorEnv) : List HistoryContentKey → List (Nat × Bool) × Bool
  | [] => ([], false)
  | k :: rest =>
    match auditOne env k with
    | .recorded i p =>
      let tail := auditLoop env rest
      ((i, p) :: tail.1, tail.2)
    | .skipped => auditLoop env rest
    | .netFatal => ([], true)
    | .storeFatal => ([], true)

/-- An event on the bounded hand-off channel. -/
inductive QueueEvent where
  | push (item : HistoryContentKey)
  | pop

/-- Semantics of the bounded `mpsc::channel(100)` of `run_glados_audit`: a push onto a
full queue and a pop from an empty queue do not fire (`none`) — the caller suspends
until the transition is enabled; nothing is ever dropped. -/
def queueStep (q : List HistoryContentKey) : QueueEvent → Option (List HistoryContentKey)
  | .push k => if q.length < queueCapacity then some (q ++ [k]) else none
  | .pop =>
    match q with
    | [] => none
    | _ :: rest => some rest

/-- States of the channel reachable from the empty initial queue by enabled
push/pop transitions. -/
inductive QueueReachable : List HistoryContentKey → Prop where
  | init : QueueReachable []
  | step (q q' : List HistoryContentKey) (e : QueueEvent) :
      QueueReachable q → queueStep q e = some q' → QueueReachable q'

/-- If auditing a key produced a record, the resolve oracle returned that entry id for
the key (inversion of `auditOne`). -/
theorem auditOne_recorded_resolve (env : AuditorEnv) (k : HistoryContentKey) (i : Nat)
    (p : Bool) (h : auditOne env k = .recorded i p) : env.resolve k = .ok (some i) := by
  cases hnet : env.net k with
  | error e => simp [auditOne, hnet] at h
  | ok payload =>
    cases hres : env.resolve k with
    | error e => simp [auditOne, hnet, hres] at h
    | ok o =>
      cases o with
      | none => simp [auditOne, hnet, hres] at h
      | some j =>
        cases hs : env.storeOk j (classify payload) with
        | false => simp [auditOne, hnet, hres, storeOutcome, hs] at h
        | true =>
          simp [auditOne, hnet, hres, storeOutcome, hs] at h
          rw [h.1]

/-- Every record emitted by the Auditor loop carries an entry id that the resolve
oracle returned for some key of the queue. -/
theorem auditLoop_records_resolved (env : AuditorEnv) (ks : List HistoryContentKey) :
    ∀ r ∈ (auditLoop env ks).1, ∃ k ∈ ks, env.resolve k = .ok (some r.1) := by
  induction ks with
  | nil => simp [auditLoop]
  | cons k rest ih =>
    intro r hr
    cases ha : auditOne env k with
    | recorded i p =>
      have hr' : r = (i, p) ∨ r ∈ (auditLoop env rest).1 := by
        rw [auditLoop, ha] at hr
        simpa using hr
      rcases hr' with hr' | hr'
      · subst hr'
        exact ⟨k, List.mem_cons_self k rest, auditOne_recorded_resolve env k i p ha⟩
      · obtain ⟨k2, hk2, hre⟩ := ih r hr'
        exact ⟨k2, List.mem_cons_of_mem k hk2, hre⟩
    | skipped =>
      rw [auditLoop, ha] at hr
      obtain ⟨k2, hk2, hre⟩ := ih r hr
      exact ⟨k2, by simp [hk2], hre⟩
    | netFatal => rw [auditLoop, ha] at hr; simp at hr
    | storeFatal => rw [auditLoop, ha] at hr; simp at hr

/-- C1: for every payload returned by a successful lookup that the Catalog resolves and
the store accepts, the Auditor computes `passed = (payload length > 2)` — lengths 0, 1, 2
give `false`, lengths 3 and above give `true` — and exactly that flag is the one in the
persisted record. -/
theorem c1_classification_flag (env : AuditorEnv) (k : HistoryContentKey)
    (payload : List Byte) (entryId : Nat) (rest : List HistoryContentKey)
    (hnet : env.net k = .ok payload)
    (hres : env.resolve k = .ok (some entryId))
    (hstore : env.storeOk entryId (classify payload) = true) :
    auditOne env k = .recorded entryId (classify payload)
    ∧ (auditLoop env (k :: rest)).1 = (entryId, classify payload) :: (auditLoop env rest).1
    ∧ (payload.length ≤ 2 → classify payload = false)
    ∧ (3 ≤ payload.length → classify payload = true) := by
  have h1 : auditOne env k = .recorded entryId (classify payload) := by
    simp [auditOne, hnet, hres, storeOutcome, hstore]
  refine ⟨h1, by simp [auditLoop, h1], ?_, ?_⟩
  · intro h; simp [classify]; omega
  · intro h; simp [classify]; omega

/-- Witness for C1 at a concrete environment: payload `[0, 1, 2]` (length 3) yields a
record with `passed = true` for entry 7. -/
theorem c1_classification_flag_witness :
    auditOne ⟨fun _ => .ok [0, 1, 2], fun _ => .ok (some 7), fun _ _ => true⟩
        (.BlockHeader ⟨[]⟩) = .recorded 7 (classify [0, 1, 2])
    ∧ classify [0, 1, 2] = true := by
  refine ⟨(c1_classification_flag _ (.BlockHeader ⟨[]⟩) [0, 1, 2] 7 [] rfl rfl rfl).1, by decide⟩

/-- C2: when the resolve step finds no matching Catalog entry for a key, no record is
created for that key and the loop continues with the remaining queue unchanged; moreover
every record ever written references an entry id the Catalog resolved for its key. -/
theorem c2_resolve_none_no_record (env : AuditorEnv) (k : HistoryContentKey)
    (payload : List Byte) (rest ks : List HistoryContentKey)
    (hnet : env.net k = .ok payload)
    (hres : env.resolve k = .ok none) :
    auditOne env k = .skipped
    ∧ auditLoop env (k :: rest) = auditLoop env rest
    ∧ ∀ r ∈ (auditLoop env ks).1, ∃ k2 ∈ ks, env.resolve k2 = .ok (some r.1) := by
  have h1 : auditOne env k = .skipped := by simp [auditOne, hnet, hres]
  exact ⟨h1, by rw [auditLoop, h1], auditLoop_records_resolved env ks⟩

/-- Witness for C2 at a concrete environment whose resolve oracle returns none. -/
theorem c2_resolve_none_no_record_witness :
    auditOne ⟨fun _ => .ok [5, 5, 5, 5], fun _ => .ok none, fun _ _ => true⟩
        (.BlockHeader ⟨[]⟩) = .skipped := by
  exact (c2_resolve_none_no_record _ (.BlockHeader ⟨[]⟩) [5, 5, 5, 5] [] [] rfl rfl).1

/-- C3: derivation is lossless and deterministic — for a raw key `[s] ++ H ++ tail` with
`H` of 32 bytes, the derived LookupKey carries exactly `H`, for any selector `s` and any
`tail`. -/
theorem c3_derivation_lossless (s : Byte) (H tail : List Byte) (hH : H.length = 32) :
    deriveLookupKey (s :: (H ++ tail)) = some (.BlockHeader ⟨H⟩) := by
  have hlen : 33 ≤ (s :: (H ++ tail)).length := by
    simp [hH]
  simp only [deriveLookupKey, if_pos hlen, List.drop_succ_cons, List.drop_zero]
  rw [← hH, List.take_left]

/-- Witness for C3 at selector 0, hash `replicate 32 1`, tail `[2, 3]`. -/
theorem c3_derivation_lossless_witness :
    deriveLookupKey (0 :: (List.replicate 32 1 ++ [2, 3]))
      = some (.BlockHeader ⟨List.replicate 32 1⟩) :=
  c3_derivation_lossless 0 (List.replicate 32 1) [2, 3] (by simp)

/-- When every entry of the batch has a raw key of at least 33 bytes and the channel is
open, a tick pushes exactly the derived key of each entry, in order, without aborting. -/
theorem pushLoop_all_valid :
    ∀ entries : List ContentKeyEntry, (∀ e ∈ entries, 33 ≤ e.content_key.length) →
      pushLoop true entries
        = (entries.map fun e =>
            HistoryContentKey.BlockHeader ⟨(e.content_key.drop 1).take 32⟩, false) := by
  intro entries
  induction entries with
  | nil => intro _; simp [pushLoop]
  | cons e rest ih =>
    intro hvalid
    have he : 33 ≤ e.content_key.length := hvalid e (List.mem_cons_self e rest)
    have ihh := ih (fun x hx => hvalid x (List.mem_cons_of_mem e hx))
    simp [pushLoop, deriveLookupKey, he, ihh]

/-- C4 counterexample: the entry-to-LookupKey mapping is not injective. Two distinct
entries whose raw keys differ only in the selector byte derive the same LookupKey, and a
tick over both pushes the same item twice. -/
theorem c4_injectivity_counterexample :
    (⟨1, 0 :: List.replicate 32 0, 0⟩ : ContentKeyEntry) ≠ ⟨2, 1 :: List.replicate 32 0, 0⟩
    ∧ deriveLookupKey (0 :: List.replicate 32 0) = deriveLookupKey (1 :: List.replicate 32 0)
    ∧ (deriveLookupKey (0 :: List.replicate 32 0)).isSome = true
    ∧ pushLoop true [⟨1, 0 :: List.replicate 32 0, 0⟩, ⟨2, 1 :: List.replicate 32 0, 0⟩]
        = ([.BlockHeader ⟨List.replicate 32 0⟩, .BlockHeader ⟨List.replicate 32 0⟩], false) := by
  decide

/-- C4 (amended): on a tick whose Catalog query succeeds with k entries, each of raw key
length at least 33, exactly k items are pushed, each one the deterministic image of its
entry's raw-key bytes 1..33; the mapping is deterministic but not injective. -/
theorem c4_tick_pushes_batch (entries : List ContentKeyEntry)
    (hvalid : ∀ e ∈ entries, 33 ≤ e.content_key.length) :
    doAuditTick (.ok entries) true
      = (entries.map fun e =>
          HistoryContentKey.BlockHeader ⟨(e.content_key.drop 1).take 32⟩, false)
    ∧ (doAuditTick (.ok entries) true).1.length = entries.length := by
  have main := pushLoop_all_valid entries hvalid
  refine ⟨by simpa [doAuditTick] using main, ?_⟩
  simp [doAuditTick, main]

/-- Witness for C4 (amended) at a concrete one-entry batch. -/
theorem c4_tick_pushes_batch_witness :
    doAuditTick (.ok [⟨1, 0 :: List.replicate 32 0, 0⟩]) true
      = ([.BlockHeader ⟨List.replicate 32 0⟩], false)
    ∧ (doAuditTick (.ok [(⟨1, 0 :: List.replicate 32 0, 0⟩ : ContentKeyEntry)]) true).1.length
        = 1 := by
  have h := c4_tick_pushes_batch [⟨1, 0 :: List.replicate 32 0, 0⟩] (by decide)
  exact ⟨by rw [h.1]; decide, h.2⟩

/-- C5: when the Audit Store write fails, the failure is fatal to the Auditor — the step
is `storeFatal`, no record is persisted for that key, and the loop terminates without
processing the rest of the queue. -/
theorem c5_store_error_fatal (env : AuditorEnv) (k : HistoryContentKey)
    (payload : List Byte) (entryId : Nat) (rest : List HistoryContentKey)
    (hnet : env.net k = .ok payload)
    (hres : env.resolve k = .ok (some entryId))
    (hstore : env.storeOk entryId (classify payload) = false) :
    auditOne env k = .storeFatal ∧ auditLoop env (k :: rest) = ([], true) := by
  have h1 : auditOne env k = .storeFatal := by
    simp [auditOne, hnet, hres, storeOutcome, hstore]
  exact ⟨h1, by simp [auditLoop, h1]⟩

/-- Witness for C5 at a concrete environment whose store oracle always fails. -/
theorem c5_store_error_fatal_witness :
    auditOne ⟨fun _ => .ok [9, 9, 9], fun _ => .ok (some 4), fun _ _ => false⟩
        (.BlockHeader ⟨[]⟩) = .storeFatal := by
  exact (c5_store_error_fatal _ (.BlockHeader ⟨[]⟩) [9, 9, 9] 4 [] rfl rfl rfl).1

/-- C6: a push onto the channel whose receiving side has terminated is fatal to the
Scheduler — the tick aborts with nothing enqueued. -/
theorem c6_closed_channel_fatal (e : ContentKeyEntry) (rest : List ContentKeyEntry)
    (k : HistoryContentKey) (hd : deriveLookupKey e.content_key = some k) :
    doAuditTick (.ok (e :: rest)) false = ([], true) := by
  simp [doAuditTick, pushLoop, hd]

/-- Witness for C6 at a concrete entry with a 33-byte raw key. -/
theorem c6_closed_channel_fatal_witness :
    doAuditTick (.ok [(⟨1, 0 :: List.replicate 32 0, 0⟩ : ContentKeyEntry)]) false
      = ([], true) := by
  exact c6_closed_channel_fatal ⟨1, 0 :: List.replicate 32 0, 0⟩ []
    (.BlockHeader ⟨List.replicate 32 0⟩) (by decide)

/-- C7: a network error on the lookup is fatal to the Auditor — the step is `netFatal`,
no record is written for that key, and the loop terminates. -/
theorem c7_network_error_fatal (env : AuditorEnv) (k : HistoryContentKey)
    (rest : List HistoryContentKey) (hnet : env.net k = .error ()) :
    auditOne env k = .netFatal ∧ auditLoop env (k :: rest) = ([], true) := by
  have h1 : auditOne env k = .netFatal := by simp [auditOne, hnet]
  exact ⟨h1, by simp [auditLoop, h1]⟩

/-- Witness for C7 at a concrete environment whose network oracle always fails. -/
theorem c7_network_error_fatal_witness :
    auditOne ⟨fun _ => .error (), fun _ => .ok (some 4), fun _ _ => true⟩
        (.BlockHeader ⟨[]⟩) = .netFatal := by
  exact (c7_network_error_fatal _ (.BlockHeader ⟨[]⟩) [] rfl).1

/-- C8: when the Catalog query of a tick fails, that tick pushes nothing and does not
abort, and a tick is a pure function of its own query result, so the next tick with a
successful query proceeds exactly as the normal push loop. -/
theorem c8_catalog_failure_skips_tick (channelOpen : Bool) (err : Unit)
    (entries : List ContentKeyEntry) :
    doAuditTick (.error err) channelOpen = ([], false)
    ∧ doAuditTick (.ok entries) channelOpen = pushLoop channelOpen entries :=
  ⟨rfl, rfl⟩

/-- C9: in every reachable state of the bounded channel, the queue holds at most
`queueCapacity` (100) items, and a push in a full state is disabled (the sender
suspends) rather than dropping the item. -/
theorem c9_queue_bounded :
    (∀ q, QueueReachable q → q.length ≤ queueCapacity)
    ∧ (∀ q k, q.length = queueCapacity → queueStep q (.push k) = none) := by
  constructor
  · intro q h
    induction h with
    | init => simp
    | step q q' e hq hstep ih =>
      cases e with
      | push k =>
        by_cases hlt : q.length < queueCapacity
        · simp [queueStep, hlt] at hstep
          subst hstep
          simp
          omega
        · simp [queueStep, hlt] at hstep
      | pop =>
        cases q with
        | nil => simp [queueStep] at hstep
        | cons a t =>
          simp [queueStep] at hstep
          subst hstep
          simp at ih
          omega
  · intro q k hfull
    simp [queueStep, hfull, queueCapacity]

/-- Witness for C9: the initial state is within the bound, and a push onto a concrete
full queue of 100 items is disabled. -/
theorem c9_queue_bounded_witness :
    ([] : List HistoryContentKey).length ≤ queueCapacity
    ∧ queueStep (List.replicate 100 (.BlockHeader ⟨[]⟩)) (.push (.BlockHeader ⟨[]⟩))
        = none := by
  exact ⟨c9_queue_bounded.1 [] QueueReachable.init,
    c9_queue_bounded.2 _ _ (by simp [queueCapacity])⟩

/-- C10: the Scheduler's derivation is only total for raw keys of at least 33 bytes —
any shorter raw key makes the slice panic and aborts the tick before anything is pushed
for it, while every raw key of 33 or more bytes derives successfully. -/
theorem c10_short_key_panics (raw : List Byte) (h : raw.length < 33) :
    deriveLookupKey raw = none
    ∧ (∀ (channelOpen : Bool) (i t : Nat) (rest : List ContentKeyEntry),
        pushLoop channelOpen (⟨i, raw, t⟩ :: rest) = ([], true))
    ∧ (∀ raw2 : List Byte, 33 ≤ raw2.length → (deriveLookupKey raw2).isSome = true) := by
  have h1 : deriveLookupKey raw = none := by
    rw [deriveLookupKey, if_neg (by omega)]
  exact ⟨h1, fun c i t rest => by simp [pushLoop, h1],
    fun raw2 h2 => by simp [deriveLookupKey, h2]⟩

/-- Witness for C10 at the empty raw key. -/
theorem c10_short_key_panics_witness :
    deriveLookupKey [] = none
    ∧ pushLoop true [(⟨1, [], 0⟩ : ContentKeyEntry)] = ([], true) := by
  have h := c10_short_key_panics [] (by decide)
  exact ⟨h.1, h.2.1 true 1 0 []⟩

end GladosAudit
